import Mathlib

/-!
# express-primer: verification of the validation middleware and spec-assembly core

Shallow embedding of the `express-primer` repository:

* `src/Endpoint.js` — the request/response validation middleware
  (`requestSchema`, `createMiddleware`, `defaultOptions`, `ValidationError`,
  `EndpointError`, `Response`);
* the `Router` module (`route`, `secure`, `getParameters`, `unfold`,
  `joinUris`) as written in the revision that the repository's own test
  suite (`test/Router.test.js`, which calls `router.mount()` and
  `router.use(...)`) exercises.  The repository snapshot also carries an
  older `Router.js` whose `secure` writes to a nonexistent
  `spec.securitySchemes` and whose `getParameters` dereferences a null
  schema; that revision cannot run the repository's tests, so the
  test-consistent revision is embedded and divergences are noted at the
  theorems they affect.

JavaScript values are modelled by the inductive `JVal` (null/undefined are
merged into `JVal.null`; the embedding never needs to distinguish them,
except at optional-argument boundaries where `Option` is used instead).
The schema-validation engine (ajv) is treated as the black box the spec
describes: middleware theorems are parameterised over an arbitrary
`compile : schema → Validator`; where a claim needs actual validation
semantics, the small JSON-Schema fragment checker `validateJ` is used.
`unfold` and `route` take an explicit recursion-fuel argument; exhausted
fuel (or a JavaScript `TypeError`, e.g. member access on a deleted field)
is modelled as `none`.
-/

set_option autoImplicit false

namespace ExpressPrimer

/-- JavaScript (JSON-like) runtime values.  `null` also stands for
`undefined`; the two are distinguished only where a claim needs it, via
`Option JVal` at call boundaries. -/
inductive JVal where
  | null : JVal
  | bool : Bool → JVal
  | num : Int → JVal
  | str : String → JVal
  | arr : List JVal → JVal
  | obj : List (String × JVal) → JVal
  deriving Repr, Inhabited

namespace JVal

mutual

/-- Structural (JavaScript strict-equality-on-JSON style) comparison,
used for `includes` checks on `required` arrays and `const` keywords. -/
def beq : JVal → JVal → Bool
  | .null, .null => true
  | .bool a, .bool b => a = b
  | .num a, .num b => a = b
  | .str a, .str b => a = b
  | .arr xs, .arr ys => beqList xs ys
  | .obj xs, .obj ys => beqFields xs ys
  | _, _ => false

def beqList : List JVal → List JVal → Bool
  | [], [] => true
  | x :: xs, y :: ys => beq x y && beqList xs ys
  | _, _ => false

def beqFields : List (String × JVal) → List (String × JVal) → Bool
  | [], [] => true
  | (k, v) :: xs, (l, w) :: ys => k = l && beq v w && beqFields xs ys
  | _, _ => false

end

/-- JavaScript truthiness: `null`/`undefined`, `false`, `0` and `''` are
falsy; every object and array (including empty ones) is truthy. -/
def truthy : JVal → Bool
  | .null => false
  | .bool b => b
  | .num n => n != 0
  | .str s => s ≠ ""
  | .arr _ => true
  | .obj _ => true

/-- `obj[k]` for the object case; missing key gives `undefined` (merged
into `null`).  Property access on primitives yields `undefined`; access on
an array by non-index key likewise.  (Member access on `null` itself
throws in JavaScript; call sites where that matters model it separately.) -/
def prop : JVal → String → JVal
  | .obj fields, k => (fields.lookup k).getD .null
  | _, _ => .null

/-- `Object.keys`, in insertion order (objects are built with unique keys). -/
def keys : JVal → List String
  | .obj fields => fields.map Prod.fst
  | _ => []

/-- `a || b`. -/
def orJ (a b : JVal) : JVal := if a.truthy then a else b

end JVal

/-- `fields[k] = v` on a key-value list: overwrite the first occurrence in
place, append when absent (JavaScript property assignment /
`Object.assign(map, ... )` with a single computed key). -/
def setKeyJ {α : Type} (k : String) (v : α) : List (String × α) → List (String × α)
  | [] => [(k, v)]
  | (k0, v0) :: rest =>
    if k0 = k then (k, v) :: rest else (k0, v0) :: setKeyJ k v rest

/-- `delete obj[k]` on an object's field list. -/
def removeKeyJ (k : String) : List (String × JVal) → List (String × JVal)
  | [] => []
  | (k0, v0) :: rest =>
    if k0 = k then rest else (k0, v0) :: removeKeyJ k rest

/- ## String toolkit (structural, kernel-reducible) -/

/-- `s.startsWith(p)` on character lists. -/
def charsStartWith : List Char → List Char → Bool
  | _, [] => true
  | [], _ :: _ => false
  | c :: cs, d :: ds => c = d && charsStartWith cs ds

def strStartsWith (s p : String) : Bool := charsStartWith s.toList p.toList

/-- `s.split(sep)` for a one-character separator, JavaScript semantics
(leading/trailing/adjacent separators produce empty segments). -/
def splitOnChar (sep : Char) : List Char → List (List Char)
  | [] => [[]]
  | c :: cs =>
    let rest := splitOnChar sep cs
    if c = sep then [] :: rest
    else match rest with
      | [] => [[c]]
      | seg :: segs => (c :: seg) :: segs

def strSplit (s : String) (sep : Char) : List String :=
  (splitOnChar sep s.toList).map fun cs => String.mk cs

/-- `list.join(sep)`. -/
def joinWith (sep : String) : List String → String
  | [] => ""
  | [x] => x
  | x :: y :: xs => x ++ sep ++ joinWith sep (y :: xs)

/-- Remove the first occurrence of `pat` from `s`
(JavaScript `s.replace(pat, '')` with a string pattern). -/
def removeFirstChars (pat : List Char) : List Char → List Char
  | [] => []
  | c :: rest =>
    if charsStartWith (c :: rest) pat ∧ pat ≠ [] then (c :: rest).drop pat.length
    else c :: removeFirstChars pat rest

def strRemoveFirst (s pat : String) : String :=
  String.mk (removeFirstChars pat.toList s.toList)

/-- Drop leading `/` characters (the `while (x.startsWith('/'))` loops in
`joinUris`). -/
def dropLeadingSlashes : List Char → List Char
  | [] => []
  | c :: cs => if c = '/' then dropLeadingSlashes cs else c :: cs

/-- Drop trailing `/` characters. -/
def dropTrailingSlashes (cs : List Char) : List Char :=
  (dropLeadingSlashes cs.reverse).reverse

/-- `joinUris(from, to)` from Router: strip `to`'s leading slashes and
`from`'s leading and trailing slashes, then join with a single `/`. -/
def joinUris (f t : String) : String :=
  String.mk (dropTrailingSlashes (dropLeadingSlashes f.toList))
    ++ "/" ++ String.mk (dropLeadingSlashes t.toList)

/- ## Endpoint (src/Endpoint.js) -/

/-- The request facets for which `Endpoint` has a `<facet>Schema()`
override point.  `options.requestPropertiesToValidate` is a list of these
(the dynamic `this[`${property}Schema`]()` dispatch in `requestSchema`
resolves exactly these six method names). -/
inductive Facet where
  | query | params | headers | cookies | signedCookies | body
  deriving DecidableEq, Repr

def Facet.name : Facet → String
  | .query => "query"
  | .params => "params"
  | .headers => "headers"
  | .cookies => "cookies"
  | .signedCookies => "signedCookies"
  | .body => "body"

/-- `Endpoint.defaultOptions()` (the ajv engine options `useDefaults` and
`coerceTypes` configure the black-box validator compiler and are folded
into the abstract `compile` parameter of the middleware model). -/
structure OptionsV where
  validateResponse : Bool
  defaultResponseCode : Int
  defaultResponseMediaType : String
  defaultRequestBodyMediaType : String
  requestPropertiesToValidate : List Facet
  requestBodyRequiredIfHasSchema : Bool
  responseHeaders : JVal

def defaultOptions : OptionsV :=
  { validateResponse := false
    defaultResponseCode := 200
    defaultResponseMediaType := "application/json"
    defaultRequestBodyMediaType := "application/json"
    requestPropertiesToValidate :=
      [.query, .params, .headers, .cookies, .signedCookies]
    requestBodyRequiredIfHasSchema := true
    responseHeaders := JVal.obj [] }

/-- An `Endpoint` subclass instance as the Router sees it: the schema
override points (each `JVal.null` when not overridden, mirroring the base
class returning `null`) and the resolved `options`.  The handler is kept
outside this structure so that middleware theorems can quantify over it
independently. -/
structure EndpointV where
  querySchema : JVal
  bodySchema : JVal
  paramsSchema : JVal
  headersSchema : JVal
  cookiesSchema : JVal
  signedCookiesSchema : JVal
  responseCodeSchemas : JVal
  options : OptionsV

/-- An endpoint with no overrides (`new Endpoint()` with default options). -/
def EndpointV.base : EndpointV :=
  { querySchema := .null, bodySchema := .null, paramsSchema := .null
    headersSchema := .null, cookiesSchema := .null
    signedCookiesSchema := .null, responseCodeSchemas := .null
    options := defaultOptions }

/-- `this[`${property}Schema`]()`. -/
def EndpointV.facetSchema (e : EndpointV) : Facet → JVal
  | .query => e.querySchema
  | .params => e.paramsSchema
  | .headers => e.headersSchema
  | .cookies => e.cookiesSchema
  | .signedCookies => e.signedCookiesSchema
  | .body => e.bodySchema

/-- The composite request schema `{type: 'object', properties, required}`
that `requestSchema()` builds (represented structurally; it is consumed
only by the validator compiler). -/
structure ObjSchemaV where
  properties : List (String × JVal)
  required : List String
  deriving Repr

/-- `Endpoint.requestSchema()`: fold over
`options.requestPropertiesToValidate`; a facet with a truthy declared
schema is pushed onto `required`; every listed facet is written into
`properties`, with `propertySchema || {}` as its value. -/
def requestSchema (e : EndpointV) : ObjSchemaV :=
  e.options.requestPropertiesToValidate.foldl
    (fun schema property =>
      let propertySchema := e.facetSchema property
      { properties :=
          setKeyJ property.name (propertySchema.orJ (.obj []))
            schema.properties
        required :=
          schema.required ++
            (if propertySchema.truthy then [property.name] else []) })
    { properties := [], required := [] }

/- ## A JSON-Schema fragment checker

Stands in for the ajv engine where a claim needs actual validation
semantics (the `fuel` argument bounds schema nesting; all claims use
concrete shallow schemas).  Keywords interpreted: `type`
(object/string/integer/array/boolean), `required`, `properties`, `const`,
`enum`; a keyword that is absent constrains nothing, and properties not
listed in `properties` are unconstrained (ajv default:
no `additionalProperties`). -/

def typeMatches (t : String) (data : JVal) : Bool :=
  match t with
  | "object" => match data with | .obj _ => true | _ => false
  | "string" => match data with | .str _ => true | _ => false
  | "integer" => match data with | .num _ => true | _ => false
  | "number" => match data with | .num _ => true | _ => false
  | "array" => match data with | .arr _ => true | _ => false
  | "boolean" => match data with | .bool _ => true | _ => false
  | "null" => match data with | .null => true | _ => false
  | _ => true

def jvHasKey (data : JVal) (k : String) : Bool :=
  match data with
  | .obj fields => (fields.lookup k).isSome
  | _ => false

def validateJ : Nat → JVal → JVal → Bool
  | 0, _, _ => false
  | Nat.succ fuel, schema, data =>
    match schema with
    | .bool b => b
    | .obj fields =>
      (match fields.lookup "type" with
        | some (.str t) => typeMatches t data
        | _ => true) &&
      (match fields.lookup "required" with
        | some (.arr ks) =>
          ks.all fun k =>
            match k with
            | .str s => jvHasKey data s
            | _ => true
        | _ => true) &&
      (match fields.lookup "properties" with
        | some (.obj props) =>
          props.all fun kv =>
            match data with
            | .obj dataFields =>
              match dataFields.lookup kv.1 with
              | some v => validateJ fuel kv.2 v
              | none => true
            | _ => true
        | _ => true) &&
      (match fields.lookup "const" with
        | some c => JVal.beq data c
        | none => true) &&
      (match fields.lookup "enum" with
        | some (.arr cs) => cs.any fun c => JVal.beq data c
        | _ => true)
    | _ => true

/-- Validation of the composite request schema against the request object:
the request must be an object; each `required` facet name must be present;
each facet listed in `properties` that is present on the request validates
against its sub-schema. -/
def checkObjSchema (fuel : Nat) (s : ObjSchemaV) (data : JVal) : Bool :=
  match data with
  | .obj dataFields =>
    (s.required.all fun k => (dataFields.lookup k).isSome) &&
    (s.properties.all fun kv =>
      match dataFields.lookup kv.1 with
      | some v => validateJ fuel kv.2 v
      | none => true)
  | _ => false

/-- What `checkObjSchema` tests about the single facet `f` of request
`req`: presence when the facet declared a schema (it is then in
`required`), and validity of the facet's value against the declared
schema (or against `{}` when none was declared). -/
def facetPasses (fuel : Nat) (e : EndpointV) (req : JVal) (f : Facet) : Bool :=
  (if (e.facetSchema f).truthy then jvHasKey req f.name else true) &&
  (match req with
    | .obj reqFields =>
      match reqFields.lookup f.name with
      | some v => validateJ fuel ((e.facetSchema f).orJ (.obj [])) v
      | none => true
    | _ => true)

/- ## Middleware (Endpoint.createMiddleware) -/

/-- The external validator contract (spec §6): a compiled validator is a
boolean test plus the `.errors` list it reports for an input that was just
validated.  ajv's in-place default/coercion mutation of the input is not
modelled (no claim depends on it). -/
structure ValidatorV where
  check : JVal → Bool
  errorsFor : JVal → JVal

/-- `EndpointError` as serialised over the wire: `{code, message, details}`. -/
structure EndpointErrorV where
  code : Int
  message : String
  details : JVal
  deriving Repr

/-- `new ValidationError(errors)` — message and code take their defaults
(`'This request is not valid.'`, `400`); `details` is the raw error list. -/
def ValidationError.ofErrors (errors : JVal) : EndpointErrorV :=
  { code := 400, message := "This request is not valid.", details := errors }

/-- `new ValidationError(errors, 'Response was not in the expected format.', 500)`. -/
def ValidationError.responseFailure (errors : JVal) : EndpointErrorV :=
  { code := 500, message := "Response was not in the expected format."
    details := errors }

/-- `Response` (src/Response.js): `constructor(body = '', code = 200,
headers = {})`.  `Option` models an `undefined` argument, which triggers
the JavaScript default. -/
structure ResponseV where
  body : JVal
  code : Int
  headers : JVal
  deriving Repr

def ResponseV.make (body : Option JVal) (code : Option Int)
    (headers : Option JVal) : ResponseV :=
  { body := body.getD (.str ""), code := code.getD 200
    headers := headers.getD (.obj []) }

/-- What the handler's promise resolves to: a `Response` instance or any
other (bare) value. -/
inductive HandlerRet where
  | resp : ResponseV → HandlerRet
  | bare : JVal → HandlerRet

/-- One request's outcome through the middleware: `next(err)` with a
`ValidationError` built by the middleware itself, `next(err)` with an
error thrown/rejected by the handler (forwarded verbatim), or
`res.set(headers); res.status(code).send(body)`. -/
inductive MwOutcome (ε : Type) where
  | nextErr : EndpointErrorV → MwOutcome ε
  | nextRaw : ε → MwOutcome ε
  | send : JVal → Int → JVal → MwOutcome ε

/-- `createResponseValidators(spec)`: one compiled validator per key of
`responseCodeSchemas() || {}` (each key is already a string). -/
def createResponseValidators (e : EndpointV)
    (compileResp : JVal → ValidatorV) : List (String × ValidatorV) :=
  let schemas := e.responseCodeSchemas.orJ (.obj [])
  schemas.keys.map fun code => (code, compileResp (schemas.prop code))

/-- Normalisation of the handler's resolved value: a `Response` instance
passes through; any other value is wrapped as
`new Response(body, defaultResponseCode, defaultResponseHeaders)`.
`defaultResponseHeaders` is destructured from `this.options`, which has no
such key, so the wrap always passes `undefined` and the `Response`
constructor default `{}` applies. -/
def normalizeRet (e : EndpointV) : HandlerRet → ResponseV
  | .resp r => r
  | .bare b => ResponseV.make (some b) (some e.options.defaultResponseCode) none

/-- The response-validation guard of the final `.then` block:
`validateResponse && responseValidator && !responseValidator(response.body)`. -/
def respRejects (e : EndpointV) (compileResp : JVal → ValidatorV)
    (r : ResponseV) : Bool :=
  match (createResponseValidators e compileResp).lookup (Int.repr r.code) with
  | some v => e.options.validateResponse && !(v.check r.body)
  | none => false

/-- The promise chain after a passing request validation: invoke the
handler (rejections forwarded verbatim via `.catch(next)`), normalise the
result, run the response-validation guard, then either `next` the 500
`ValidationError` or emit the response. -/
def afterValidation {ε : Type} (e : EndpointV)
    (compileResp : JVal → ValidatorV) (handler : JVal → Except ε HandlerRet)
    (req : JVal) : MwOutcome ε :=
  match handler req with
  | .error err => .nextRaw err
  | .ok ret =>
    let response := normalizeRet e ret
    match (createResponseValidators e compileResp).lookup (Int.repr response.code) with
    | some v =>
      if e.options.validateResponse && !(v.check response.body) then
        .nextErr (ValidationError.responseFailure (v.errorsFor response.body))
      else .send response.headers response.code response.body
    | none => .send response.headers response.code response.body

/-- `createMiddleware(spec)` (the compiled request and response validators
are produced by the caller-supplied black-box `compile` functions, which
absorb the ajv options and the `spec` reference document): if the request
validator fails, `next(new ValidationError(requestValidator.errors))` and
stop; otherwise run the promise chain. -/
def createMiddleware {ε : Type} (e : EndpointV)
    (compileReq : ObjSchemaV → ValidatorV) (compileResp : JVal → ValidatorV)
    (handler : JVal → Except ε HandlerRet) (req : JVal) : MwOutcome ε :=
  let requestValidator := compileReq (requestSchema e)
  if requestValidator.check req = false then
    .nextErr (ValidationError.ofErrors (requestValidator.errorsFor req))
  else afterValidation e compileResp handler req

/-- The standard instantiation of the request-validator compiler with the
fragment checker `validateJ` (error list left empty — no claim inspects
the error payload of this instantiation). -/
def stdCompileReq (fuel : Nat) (s : ObjSchemaV) : ValidatorV :=
  { check := checkObjSchema fuel s, errorsFor := fun _ => .arr [] }

/- ## Router: schema reference resolution (`unfold`) -/

/-- `OPEN_API_REFERENCE_ID` from src/constants.js.
Modelled from the spec: the constants module itself is not in the
snapshot; the spec only requires "a distinct prefix from in-document
`components` pointers", and no claim depends on the exact string — only
on whether `$ref` starts with `OPEN_API_REFERENCE_ID + '#/'`. -/
def OPEN_API_REFERENCE_ID : String := "express-primer-spec"

/-- `obj.$ref` is truthy — the value is treated as a pointer. -/
def JVal.hasRef (v : JVal) : Bool := (v.prop "$ref").truthy

/-- `Router.unfold(obj, references = this.spec)`: falsy values resolve to
`null`; a value without a truthy `$ref` passes through; otherwise strip
the external prefix (when present) or `#/` (first occurrence), split on
`/`, and walk the keys through the spec document, recursively unfolding at
every step (each inner call again defaults its references to `this.spec`).
`fuel` bounds the recursion depth: `none` models the stack exhaustion of a
reference cycle (or a `$ref` that is not a string, on which `.replace`
would throw). -/
def unfoldF (spec : JVal) : Nat → JVal → Option JVal
  | 0, _ => none
  | Nat.succ fuel, obj =>
    if obj.truthy = false then some .null
    else if obj.hasRef = false then some obj
    else match obj.prop "$ref" with
      | .str s =>
        let pfx :=
          if strStartsWith s (OPEN_API_REFERENCE_ID ++ "#/") then
            OPEN_API_REFERENCE_ID ++ "#/"
          else "#/"
        let ks := strSplit (strRemoveFirst s pfx) '/'
        ks.foldlM (fun references key => unfoldF spec fuel (references.prop key))
          spec
      | _ => none

/- ## Router: parameter synthesis -/

/-- One entry of `operation.parameters`.  `description` is `none` when the
descriptor carries no `description` key at all (path-synthesised
parameters), `some v` when `getParameters` wrote one (possibly
`undefined`, i.e. `JVal.null`); similarly `schema`. -/
structure ParamV where
  name : String
  location : String
  required : Bool
  description : Option JVal
  schema : Option JVal
  deriving Repr

/-- `Router.getParameters(location, schema)`: resolve `schema || {}`, then
one descriptor per key of `_schema.properties || {}`, with the
required-flag read from `_schema.required` (must be an array containing
the name) and the property's own `description`; this Router revision also
records the whole resolved facet schema on the descriptor. -/
def getParametersM (fuel : Nat) (spec : JVal) (location : String)
    (schema : JVal) : Option (List ParamV) := do
  let s ← unfoldF spec fuel (schema.orJ (.obj []))
  let props := (s.prop "properties").orJ (.obj [])
  pure <| props.keys.map fun paramName =>
    { name := paramName
      location := location
      required :=
        match s.prop "required" with
        | .arr ks => ks.any fun k => JVal.beq k (.str paramName)
        | _ => false
      description := some ((props.prop paramName).prop "description")
      schema := some s }

/- ## Router: path-template parsing -/

/-- The character scan of a `:name` segment (characters after the `:`):
`(` switches to regex-accumulation mode (and resets the accumulator even
when already inside), `)` stops the scan, everything else extends the
current accumulator. -/
def parseParamSeg : List Char → String → Option String → String × Option String
  | [], paramName, regex => (paramName, regex)
  | c :: rest, paramName, regex =>
    if c = '(' then parseParamSeg rest paramName (some "")
    else match regex with
      | some r =>
        if c = ')' then (paramName, some r)
        else parseParamSeg rest paramName (some (r.push c))
      | none => parseParamSeg rest (paramName.push c) none

/-- The `{name, in: 'path', required: true}` descriptor synthesised for a
placeholder, with a `{type: 'string', pattern}` schema when the extracted
regex is truthy (non-empty). -/
def pathParamFor (paramName : String) (regex : Option String) : ParamV :=
  { name := paramName, location := "path", required := true
    description := none
    schema :=
      match regex with
      | some r =>
        if r ≠ "" then
          some (.obj [("type", .str "string"), ("pattern", .str r)])
        else none
      | none => none }

/-- `Object.assign(exists, parameter)`: overwrite `name`/`in`/`required`,
and `schema` only when the path-derived descriptor carries one; keys the
path-derived descriptor lacks (`description`, and `schema` when no regex)
keep their existing values. -/
def mergeParam (old : ParamV) (fresh : ParamV) : ParamV :=
  { name := fresh.name, location := fresh.location, required := fresh.required
    description := old.description
    schema :=
      match fresh.schema with
      | some s => some s
      | none => old.schema }

/-- Replace the first descriptor named `n` (the `find` + `Object.assign`
branch). -/
def updateFirstParam (n : String) (fresh : ParamV) :
    List ParamV → List ParamV
  | [] => []
  | p :: rest =>
    if p.name = n then mergeParam p fresh :: rest
    else p :: updateFirstParam n fresh rest

/-- One step of the `.map(p => ...)` over path segments: a non-placeholder
segment passes through; a placeholder is parsed, merged into the first
same-named descriptor or pushed, and contributes `{name}` to the path. -/
def processSegment (ps : List ParamV) (seg : String) : List ParamV × String :=
  if strStartsWith seg ":" = false then (ps, seg)
  else
    let parsed := parseParamSeg (seg.toList.drop 1) "" none
    let fresh := pathParamFor parsed.1 parsed.2
    let pathSeg := "\x7b" ++ parsed.1 ++ "\x7d"
    if ps.any (fun p => p.name = parsed.1) then
      (updateFirstParam parsed.1 fresh ps, pathSeg)
    else (ps ++ [fresh], pathSeg)

/-- The whole segment map, threading the (possibly deleted) parameters
list.  When `operation.parameters` was deleted (it was empty) and a
placeholder segment is met, `operation.parameters.find` throws — modelled
as `none`. -/
def processSegmentsOpt (pOpt : Option (List ParamV)) :
    List String → Option (Option (List ParamV) × List String)
  | [] => some (pOpt, [])
  | seg :: rest =>
    if strStartsWith seg ":" = false then
      (processSegmentsOpt pOpt rest).map fun out => (out.1, seg :: out.2)
    else
      match pOpt with
      | none => none
      | some ps =>
        let step := processSegment ps seg
        (processSegmentsOpt (some step.1) rest).map fun out =>
          (out.1, step.2 :: out.2)

/-- The path contribution of one segment (placeholders become `{name}`,
other segments pass through) — it does not depend on the parameters list. -/
def segPath (seg : String) : String :=
  if strStartsWith seg ":" = false then seg
  else "\x7b" ++ (parseParamSeg (seg.toList.drop 1) "" none).1 ++ "\x7d"

/- ## Router: responses, request body, operation record -/

/-- One value of `operation.responses`. -/
structure RespV where
  description : JVal
  content : Option (String × JVal)
  headers : Option JVal
  deriving Repr

/-- The fallback response synthesised when no response was declared at
all. -/
def fallbackResponse : RespV :=
  { description := .str "No schema given for response."
    content := none, headers := none }

/-- The key a JavaScript computed property name coerces to. -/
def jsKeyString : JVal → String
  | .str s => s
  | .num n => (Int.repr n)
  | .null => "null"
  | .bool b => if b then "true" else "false"
  | _ => ""

/-- The `operation.responses` fold: for each key of
`responseCodeSchemas() || {}`, resolve the schema, derive description and
content media type, delete a truthy `contentMediaType` from the schema,
attach `responseHeaders[code]` when truthy, and assign into the map that
started as `operation.responses || {}`. -/
def buildResponsesM (fuel : Nat) (spec : JVal) (defMediaType : String)
    (responseHeaders : JVal) (schemas : JVal)
    (init : List (String × RespV)) : Option (List (String × RespV)) :=
  schemas.keys.foldlM
    (fun responses code => do
      let schema ← unfoldF spec fuel (schemas.prop code)
      let description := (schema.prop "description").orJ (.str "Response")
      let contentMediaType :=
        (schema.prop "contentMediaType").orJ (.str defMediaType)
      let schema :=
        if (schema.prop "contentMediaType").truthy then
          match schema with
          | .obj fields => JVal.obj (removeKeyJ "contentMediaType" fields)
          | other => other
        else schema
      let response : RespV :=
        { description := description
          content := some (jsKeyString contentMediaType, schema)
          headers :=
            if (responseHeaders.prop code).truthy then
              some (responseHeaders.prop code)
            else none }
      pure (setKeyJ code response responses))
    init

/-- `operation.requestBody`. -/
structure ReqBodyV where
  content : String × JVal
  description : JVal
  required : Bool
  deriving Repr

/-- The `if (bodySchema) { ... operation.requestBody = ... }` block: media
type from the schema's own truthy `contentMediaType` or the endpoint
default, a truthy `contentMediaType` deleted from the schema before it is
embedded, description read from the (mutated) schema, required-flag from
the endpoint option. -/
def mkRequestBody (e : EndpointV) (bodySchema : JVal) : Option ReqBodyV :=
  if bodySchema.truthy then
    let contentMediaType :=
      (bodySchema.prop "contentMediaType").orJ
        (.str e.options.defaultRequestBodyMediaType)
    let bodySchema :=
      if (bodySchema.prop "contentMediaType").truthy then
        match bodySchema with
        | .obj fields => JVal.obj (removeKeyJ "contentMediaType" fields)
        | other => other
      else bodySchema
    some
      { content := (jsKeyString contentMediaType, bodySchema)
        description := bodySchema.prop "description"
        required := e.options.requestBodyRequiredIfHasSchema }
  else none

/-- The object `operation()` returns (`{}` when it returns `null`),
restricted to the fields `route` reads or writes.  `security` is a raw
`JVal` because `route` only tests its truthiness (`JVal.null` both for an
absent key and a declared `undefined`). -/
structure OpInit where
  tags : List String
  parameters : List ParamV
  responses : List (String × RespV)
  security : JVal

def OpInit.empty : OpInit :=
  { tags := [], parameters := [], responses := [], security := .null }

/-- The fields of the finished operation record that `route` writes into
`spec.paths[path][method]`, together with the normalised document path. -/
structure RouteOut where
  path : String
  tags : List String
  parameters : Option (List ParamV)
  responses : List (String × RespV)
  requestBody : Option ReqBodyV
  security : JVal

/-- One Router node's registration-time state (the shared document plus
the accumulated uri prefix, tags and active security scheme; the express
router instance and the middleware chain carry no spec content and are not
modelled). -/
structure RouterState where
  spec : JVal
  tags : List String
  uri : String
  securitySchemeName : String
  securityRequirement : JVal

/-- `Array.from(new Set(a.concat(b)))`: first-occurrence order,
deduplicated. -/
def dedupConcat (a b : List String) : List String :=
  (a ++ b).foldl (fun acc t => if acc.contains t then acc else acc ++ [t]) []

/-- `Router.route(uri, Endpoint, methods)`, the document side: build the
operation record (tags, parameters with the delete-when-empty step,
responses with the no-schema fallback, requestBody, security) and the
normalised path.  `op` is what `endpoint.operation()` returned (`none`
for the base class's `null`).  The express-side registration
(`this.instance[method](uri, handler)`) and the per-method write
`spec.paths[path][method] = operation` share this one record.  `none`
models a thrown `TypeError` or exhausted unfold fuel. -/
def routeModel (fuel : Nat) (st : RouterState) (uri : String)
    (e : EndpointV) (op : Option OpInit) : Option RouteOut := do
  let bodySchema ← unfoldF st.spec fuel e.bodySchema
  let operation := op.getD OpInit.empty
  let tags := dedupConcat st.tags operation.tags
  let qs ← getParametersM fuel st.spec "query" e.querySchema
  let ps ← getParametersM fuel st.spec "path" e.paramsSchema
  let hs ← getParametersM fuel st.spec "header" e.headersSchema
  let cs ← getParametersM fuel st.spec "cookie" e.cookiesSchema
  let scs ← getParametersM fuel st.spec "cookie" e.signedCookiesSchema
  let params0 := qs ++ ps ++ hs ++ cs ++ scs ++ operation.parameters
  let paramsOpt := if params0.isEmpty then none else some params0
  let responses0 ←
    buildResponsesM fuel st.spec e.options.defaultResponseMediaType
      e.options.responseHeaders (e.responseCodeSchemas.orJ (.obj []))
      operation.responses
  let responses :=
    if responses0.isEmpty then
      [(Int.repr e.options.defaultResponseCode, fallbackResponse)]
    else responses0
  let requestBody := mkRequestBody e bodySchema
  let security :=
    if st.securitySchemeName ≠ "" ∧ operation.security.truthy = false then
      JVal.arr [.obj [(st.securitySchemeName, st.securityRequirement)]]
    else operation.security
  let segs := strSplit (joinUris st.uri uri) '/'
  let stepped ← processSegmentsOpt paramsOpt segs
  let path := "/" ++ joinWith "/" (stepped.2.filter fun s => s ≠ "")
  pure
    { path := path, tags := tags, parameters := stepped.1
      responses := responses, requestBody := requestBody
      security := security }

/-- `Router.secure(middleware, securitySchemeName, securityScheme,
securityRequirement)`: store the scheme under its name in
`spec.components.securitySchemes` (`none` when that chain of objects is
absent — `Object.assign` would throw) and record the scheme name and
requirement on the node.  The appended middleware carries no spec content. -/
def secureModel (st : RouterState) (securitySchemeName : String)
    (securityScheme : JVal) (securityRequirement : JVal) :
    Option RouterState :=
  match st.spec with
  | .obj specFields =>
    match specFields.lookup "components" with
    | some (.obj compFields) =>
      match compFields.lookup "securitySchemes" with
      | some (.obj schemeFields) =>
        some
          { st with
            spec := .obj (setKeyJ "components"
              (.obj (setKeyJ "securitySchemes"
                (.obj (setKeyJ securitySchemeName securityScheme schemeFields))
                compFields))
              specFields)
            securitySchemeName := securitySchemeName
            securityRequirement := securityRequirement }
      | _ => none
    | _ => none
  | _ => none

/-- `Router.defaultSpec()` (the shared document a root Router starts
from). -/
def defaultSpec : JVal :=
  .obj
    [("openapi", .str "3.0.0"),
     ("info", .obj
       [("title", .str "Express Primer App"),
        ("version", .str "1.0.0")]),
     ("paths", .obj []),
     ("components", .obj
       [("schemas", .obj
         [("EndpointError", .obj
           [("type", .str "object"),
            ("properties", .obj
              [("code", .obj [("type", .str "integer")]),
               ("message", .obj [("type", .str "string")]),
               ("details", .obj [])]),
            ("required", .arr [.str "code", .str "message", .str "details"])]),
          ("ValidationError", .obj
           [("type", .str "object"),
            ("properties", .obj
              [("code", .obj [("type", .str "integer")]),
               ("message", .obj [("type", .str "string")]),
               ("details", .obj
                 [("type", .str "array"),
                  ("items", .obj
                    [("type", .str "object"),
                     ("properties", .obj
                       [("dataPath", .obj [("type", .str "string")]),
                        ("keyword", .obj [("type", .str "string")]),
                        ("message", .obj [("type", .str "string")]),
                        ("params", .obj [("type", .str "object")]),
                        ("schemaPath", .obj [("type", .str "string")])])])])]),
            ("required", .arr [.str "code", .str "message", .str "details"])])]),
        ("responses", .obj
         [("EndpointError", .obj
           [("description", .str "Endpoint Error"),
            ("content", .obj
              [("application/json", .obj
                [("schema", .obj
                  [("$ref", .str "#/components/schemas/EndpointError")])])])]),
          ("ValidationError", .obj
           [("description", .str "Validation Error"),
            ("content", .obj
              [("application/json", .obj
                [("schema", .obj
                  [("$ref", .str "#/components/schemas/ValidationError")])])])])]),
        ("securitySchemes", .obj [])])]

/-- A freshly constructed root Router's node state. -/
def rootState : RouterState :=
  { spec := defaultSpec, tags := [], uri := ""
    securitySchemeName := "", securityRequirement := .arr [] }

/-- No two parameter descriptors share their `(name, in)` pair. -/
def noDupNameLoc : List ParamV → Bool
  | [] => true
  | p :: rest =>
    rest.all (fun q => !(q.name = p.name && q.location = p.location)) &&
    noDupNameLoc rest

/-- The final parameters list of a route result (empty when the route
failed or the field was deleted). -/
def paramsOfRoute : Option RouteOut → List ParamV
  | some out => out.parameters.getD []
  | none => []

/- ## Concrete fixtures for witnesses and counterexamples -/

/-- A compiled validator that rejects everything (no claim constrains how
the engine decides). -/
def rejectAllReq : ObjSchemaV → ValidatorV :=
  fun _ => { check := fun _ => false, errorsFor := fun _ => .arr [.str "e0"] }

/-- A compiled validator that accepts everything. -/
def acceptAllReq : ObjSchemaV → ValidatorV :=
  fun _ => { check := fun _ => true, errorsFor := fun _ => .arr [] }

def rejectAllResp : JVal → ValidatorV :=
  fun _ => { check := fun _ => false, errorsFor := fun _ => .arr [.str "e1"] }

def acceptAllResp : JVal → ValidatorV :=
  fun _ => { check := fun _ => true, errorsFor := fun _ => .arr [] }

def okHandler : JVal → Except Unit HandlerRet :=
  fun _ => .ok (.bare (.str "hi"))

/-- An endpoint declaring one facet schema (query). -/
def exEndpointQuery : EndpointV :=
  { EndpointV.base with querySchema := .obj [("type", .str "object")] }

/-- An endpoint with a `'200'` response schema and response validation
enabled (the `withDefaultOptions({validateResponse: true})` variant). -/
def exEndpointResp : EndpointV :=
  { EndpointV.base with
    responseCodeSchemas := .obj [("200", .obj [("const", .str "ok")])]
    options := { defaultOptions with validateResponse := true } }

/-- The C4 concrete-scenario endpoint:
`paramsSchema()` declares `id` with a description. -/
def exEndpointScenario : EndpointV :=
  { EndpointV.base with
    paramsSchema := .obj
      [("properties", .obj
         [("id", .obj [("type", .str "string"), ("description", .str "user id")])]),
       ("required", .arr [.str "id"])] }

/-- The parameter descriptor the C4 scenario produces: the `paramsSchema`
descriptor with the path-derived `in`/`required`/`pattern` merged in. -/
def scenarioMergedParam : ParamV :=
  { name := "id", location := "path", required := true
    description := some (.str "user id")
    schema := some (.obj [("type", .str "string"), ("pattern", .str "\\d+")]) }

/-- Cookie and signed-cookie schemas sharing the property name `a` —
both synthesise a `(a, cookie)` descriptor. -/
def exEndpointDupCookie : EndpointV :=
  { EndpointV.base with
    cookiesSchema := .obj [("properties", .obj [("a", .obj [])])]
    signedCookiesSchema := .obj [("properties", .obj [("a", .obj [])])] }

/-- An endpoint declaring (only) a body schema that requires an object. -/
def exEndpointBody : EndpointV :=
  { EndpointV.base with bodySchema := .obj [("type", .str "object")] }

/-- A request whose five validated facets are empty objects and whose body
is the number `5` (violating `exEndpointBody`'s body schema). -/
def exReqFields : List (String × JVal) :=
  [("query", .obj []), ("params", .obj []), ("headers", .obj []),
   ("cookies", .obj []), ("signedCookies", .obj []), ("body", .num 5)]

/-- A pointer into the default spec's components. -/
def refEndpointError : JVal :=
  .obj [("$ref", .str "#/components/schemas/EndpointError")]

/-- The concrete schema that `refEndpointError` resolves to (the
`EndpointError` component of `defaultSpec`). -/
def endpointErrorSchemaJ : JVal :=
  .obj
    [("type", .str "object"),
     ("properties", .obj
       [("code", .obj [("type", .str "integer")]),
        ("message", .obj [("type", .str "string")]),
        ("details", .obj [])]),
     ("required", .arr [.str "code", .str "message", .str "details"])]

/-- A security-scheme definition as in the repository's tests. -/
def exScheme : JVal :=
  .obj [("type", .str "apiKey"), ("name", .str "key"), ("in", .str "query")]

/-- The root node after
`secure(middleware, 'apiKey', exScheme, [])`. -/
def securedState : RouterState :=
  (secureModel rootState "apiKey" exScheme (.arr [])).getD rootState

/-- A default `RouteOut` used only as a `getD` fallback. -/
def routeOutFallback : RouteOut :=
  { path := "", tags := [], parameters := none, responses := []
    requestBody := none, security := .null }

/-- The operation record registered by `route('/foo', Endpoint)` on the
secured node. -/
def exRouteAfterSecure : RouteOut :=
  (routeModel 3 securedState "/foo" EndpointV.base none).getD routeOutFallback

/-- The operation record of the C4 concrete scenario. -/
def exRouteScenario : RouteOut :=
  (routeModel 5 rootState "/users/:id(\\d+)" exEndpointScenario none).getD
    routeOutFallback

/-- The operation record of the duplicate-cookie-name route (C6). -/
def exRouteDupCookie : RouteOut :=
  (routeModel 3 rootState "/x" exEndpointDupCookie none).getD routeOutFallback

/-- The operation record of a plain route on a base endpoint (C7). -/
def exRoutePlain : RouteOut :=
  (routeModel 3 rootState "/foo" EndpointV.base none).getD routeOutFallback

/- # Theorems -/

/-- C1: for every endpoint with at least one declared request-facet
schema, whenever the compiled request validator fails on a request, the
middleware forwards a `ValidationError` with code 400 and details equal to
the validator's raw error list.  The handler is never invoked: the
equation holds for every `handler`, and its right-hand side does not
mention the handler. -/
theorem c1_requestFailure_skips_handler {ε : Type} (e : EndpointV)
    (compileReq : ObjSchemaV → ValidatorV) (compileResp : JVal → ValidatorV)
    (handler : JVal → Except ε HandlerRet) (req : JVal)
    (_hdecl : ∃ f : Facet, (e.facetSchema f).truthy = true)
    (hfail : (compileReq (requestSchema e)).check req = false) :
    createMiddleware e compileReq compileResp handler req
      = .nextErr
          { code := 400
            message := "This request is not valid."
            details := (compileReq (requestSchema e)).errorsFor req } := by
  unfold createMiddleware
  simp only [hfail]
  rfl

/-- C1 witness: a concrete endpoint declaring a query schema, a validator
that rejects, and a concrete request. -/
theorem c1_witness :
    createMiddleware exEndpointQuery rejectAllReq acceptAllResp okHandler
      (.obj [])
      = .nextErr
          { code := 400
            message := "This request is not valid."
            details := .arr [.str "e0"] } :=
  c1_requestFailure_skips_handler exEndpointQuery rejectAllReq acceptAllResp
    okHandler (.obj []) ⟨Facet.query, rfl⟩ rfl

/-- C2: with response validation enabled, when the normalised outcome's
status code has a compiled response validator and the outcome's body fails
it, the middleware forwards a `ValidationError` whose code is 500 (not
400), and nothing is ever sent on the response. -/
theorem c2_responseFailure_is_500 {ε : Type} (e : EndpointV)
    (compileReq : ObjSchemaV → ValidatorV) (compileResp : JVal → ValidatorV)
    (handler : JVal → Except ε HandlerRet) (req : JVal) (ret : HandlerRet)
    (val : ValidatorV)
    (hvr : e.options.validateResponse = true)
    (hpass : (compileReq (requestSchema e)).check req = true)
    (hret : handler req = .ok ret)
    (hlook : (createResponseValidators e compileResp).lookup
        (Int.repr (normalizeRet e ret).code) = some val)
    (hfail : val.check (normalizeRet e ret).body = false) :
    createMiddleware e compileReq compileResp handler req
      = .nextErr
          { code := 500
            message := "Response was not in the expected format."
            details := val.errorsFor (normalizeRet e ret).body }
    ∧ ∀ (hd : JVal) (c : Int) (b : JVal),
        createMiddleware e compileReq compileResp handler req ≠ .send hd c b := by
  have hmain :
      createMiddleware e compileReq compileResp handler req
        = .nextErr
            { code := 500
              message := "Response was not in the expected format."
              details := val.errorsFor (normalizeRet e ret).body } := by
    unfold createMiddleware afterValidation
    simp only [hpass, hret, hlook, hvr, hfail]
    simp [ValidationError.responseFailure]
  refine ⟨hmain, ?_⟩
  intro hd c b hsend
  rw [hmain] at hsend
  exact MwOutcome.noConfusion hsend

/-- C2 witness: endpoint with `validateResponse` enabled and a `'200'`
response schema, a handler returning a bare value (wrapped at the default
code 200), and a response validator that rejects. -/
theorem c2_witness :
    createMiddleware exEndpointResp acceptAllReq rejectAllResp okHandler
      (.obj [])
      = .nextErr
          { code := 500
            message := "Response was not in the expected format."
            details := .arr [.str "e1"] }
    ∧ ∀ (hd : JVal) (c : Int) (b : JVal),
        createMiddleware exEndpointResp acceptAllReq rejectAllResp okHandler
          (.obj []) ≠ .send hd c b :=
  c2_responseFailure_is_500 exEndpointResp acceptAllReq rejectAllResp
    okHandler (.obj []) (.bare (.str "hi"))
    { check := fun _ => false, errorsFor := fun _ => .arr [.str "e1"] }
    rfl rfl rfl rfl rfl

/-- C3: for a request that passes validation and whose response-validation
guard does not reject, the middleware emits exactly the normalised
outcome: a bare handler value is emitted with the endpoint's configured
default status code and the default headers (the empty header object —
`options` carries no `defaultResponseHeaders` key, so the `Response`
constructor default applies), and an explicit `Response(body, code,
headers)` is emitted exactly as that triple. -/
theorem c3_success_emits_outcome {ε : Type} (e : EndpointV)
    (compileReq : ObjSchemaV → ValidatorV) (compileResp : JVal → ValidatorV)
    (handler : JVal → Except ε HandlerRet) (req : JVal) (ret : HandlerRet)
    (hpass : (compileReq (requestSchema e)).check req = true)
    (hret : handler req = .ok ret)
    (hok : respRejects e compileResp (normalizeRet e ret) = false) :
    createMiddleware e compileReq compileResp handler req
      = .send (normalizeRet e ret).headers (normalizeRet e ret).code
          (normalizeRet e ret).body
    ∧ (∀ b : JVal, ret = .bare b →
        normalizeRet e ret
          = { body := b, code := e.options.defaultResponseCode
              headers := .obj [] })
    ∧ (∀ r : ResponseV, ret = .resp r → normalizeRet e ret = r) := by
  refine ⟨?_, ?_, ?_⟩
  · unfold createMiddleware afterValidation
    simp only [hpass, hret]
    unfold respRejects at hok
    rcases hl : (createResponseValidators e compileResp).lookup
        (Int.repr (normalizeRet e ret).code) with _ | v
    · simp [hl]
    · rw [hl] at hok
      have hcond :
          (e.options.validateResponse
            && !v.check (normalizeRet e ret).body) = false := hok
      simp [hl, hcond]
  · intro b hb
    subst hb
    rfl
  · intro r hr
    subst hr
    rfl

/-- C3 witness: a bare handler value under default options is emitted with
status 200, empty headers and the returned body. -/
theorem c3_witness :
    createMiddleware EndpointV.base acceptAllReq acceptAllResp okHandler
      (.obj [])
      = .send (.obj []) 200 (.str "hi")
    ∧ normalizeRet EndpointV.base (.bare (.str "hi"))
      = { body := .str "hi", code := 200, headers := .obj [] } := by
  have h := c3_success_emits_outcome EndpointV.base acceptAllReq acceptAllResp
    okHandler (.obj []) (.bare (.str "hi")) rfl rfl rfl
  exact ⟨h.1, h.2.1 (.str "hi") rfl⟩

/- ## Helper lemmas: requestSchema characterisation -/

theorem setKeyJ_of_not_mem {α : Type} (k : String) (v : α)
    (l : List (String × α)) (h : ∀ kv ∈ l, kv.1 ≠ k) :
    setKeyJ k v l = l ++ [(k, v)] := by
  induction l with
  | nil => rfl
  | cons kv rest ih =>
    have hk : kv.1 ≠ k := h kv (List.mem_cons_self kv rest)
    obtain ⟨k0, v0⟩ := kv
    simp only [setKeyJ, if_neg hk, List.cons_append, List.cons.injEq, true_and]
    exact ih fun p hp => h p (List.mem_cons_of_mem _ hp)

/-- The `requestSchema` fold, characterised over any facet list with
pairwise-distinct names and any accumulator whose property keys avoid
those names. -/
theorem requestSchema_fold (e : EndpointV) (list : List Facet)
    (acc : ObjSchemaV)
    (hnd : (list.map Facet.name).Nodup)
    (hdisj : ∀ f ∈ list, ∀ kv ∈ acc.properties, kv.1 ≠ f.name) :
    list.foldl
      (fun schema property =>
        let propertySchema := e.facetSchema property
        { properties :=
            setKeyJ property.name (propertySchema.orJ (.obj []))
              schema.properties
          required :=
            schema.required ++
              (if propertySchema.truthy then [property.name] else []) })
      acc
      = { properties :=
            acc.properties ++
              list.map (fun f => (f.name, (e.facetSchema f).orJ (.obj [])))
          required :=
            acc.required ++
              (list.filter (fun f => (e.facetSchema f).truthy)).map
                Facet.name } := by
  induction list generalizing acc with
  | nil => simp
  | cons f rest ih =>
    simp only [List.foldl_cons]
    have hset :
        setKeyJ f.name ((e.facetSchema f).orJ (.obj [])) acc.properties
          = acc.properties ++ [(f.name, (e.facetSchema f).orJ (.obj []))] :=
      setKeyJ_of_not_mem _ _ _
        (hdisj f (List.mem_cons_self f rest))
    have hnd2 : (rest.map Facet.name).Nodup := by
      simpa using hnd.of_cons
    have hne : ∀ g ∈ rest, f.name ≠ g.name := by
      intro g hg heq
      have : f.name ∈ rest.map Facet.name := heq ▸ List.mem_map_of_mem _ hg
      exact (List.nodup_cons.mp (by simpa using hnd)).1 this
    rw [ih _ hnd2 ?_]
    · rcases h : (e.facetSchema f).truthy with _ | _ <;>
        simp [hset, h, List.filter_cons, List.append_assoc]
    · intro g hg kv hkv
      rw [hset] at hkv
      rcases List.mem_append.mp hkv with hin | hone
      · exact hdisj g (List.mem_cons_of_mem _ hg) kv hin
      · have : kv = (f.name, (e.facetSchema f).orJ (.obj [])) := by
          simpa using hone
        rw [this]
        exact hne g hg

/-- `requestSchema` under distinct facet names: one property per listed
facet (declared schema, else `{}`), `required` exactly the declaring
facets. -/
theorem requestSchema_eq (e : EndpointV)
    (hnd : (e.options.requestPropertiesToValidate.map Facet.name).Nodup) :
    requestSchema e
      = { properties :=
            e.options.requestPropertiesToValidate.map
              (fun f => (f.name, (e.facetSchema f).orJ (.obj [])))
          required :=
            (e.options.requestPropertiesToValidate.filter
              (fun f => (e.facetSchema f).truthy)).map Facet.name } := by
  unfold requestSchema
  simpa using
    requestSchema_fold e e.options.requestPropertiesToValidate
      { properties := [], required := [] } hnd (by simp)

theorem lookup_map_facetName {β : Type} (g : Facet → β) :
    ∀ (list : List Facet), (list.map Facet.name).Nodup →
      ∀ f ∈ list,
        (list.map (fun x => (x.name, g x))).lookup f.name = some (g f) := by
  intro list
  induction list with
  | nil => intro _ f hf; cases hf
  | cons a rest ih =>
    intro hnd f hf
    have hnd2 : (rest.map Facet.name).Nodup := by simpa using hnd.of_cons
    by_cases heq : f.name = a.name
    · have hfa : f = a := by
        rcases List.mem_cons.mp hf with h | h
        · exact h
        · exfalso
          have : a.name ∈ rest.map Facet.name :=
            heq ▸ List.mem_map_of_mem _ h
          exact (List.nodup_cons.mp (by simpa using hnd)).1 this
      subst hfa
      simp [List.lookup]
    · have hf2 : f ∈ rest := by
        rcases List.mem_cons.mp hf with h | h
        · exact absurd (congrArg Facet.name h) heq
        · exact h
      have hb : (f.name == a.name) = false := beq_eq_false_iff_ne.mpr heq
      simp only [List.map_cons, List.lookup, hb]
      exact ih hnd2 f hf2

/-- C5 counterexample: the claim says the composite request schema's
top-level properties are exactly the facets that declared a schema, a
facet with no declared schema not being added.  For an endpoint declaring
only `querySchema`, the code adds *all five* validated facets as
properties (the undeclared ones as `{}` via `propertySchema || {}`) —
`params` is a property although `paramsSchema()` is null, and the property
list is not `['query']`. -/
theorem c5_counterexample :
    (requestSchema exEndpointQuery).properties.map Prod.fst
      = ["query", "params", "headers", "cookies", "signedCookies"]
    ∧ exEndpointQuery.paramsSchema = JVal.null
    ∧ "params" ∈ (requestSchema exEndpointQuery).properties.map Prod.fst
    ∧ (requestSchema exEndpointQuery).properties.map Prod.fst ≠ ["query"] := by
  refine ⟨rfl, rfl, by decide, by decide⟩

/-- C5 (amended): `requestSchema()` builds one composite object schema
whose top-level properties are exactly the facets listed in
`options.requestPropertiesToValidate` (in order) — a facet that declared a
truthy schema maps to that schema and one that did not maps to the empty
schema `{}` — and whose `required` list contains exactly (in order) the
facet names that declared a schema. -/
theorem c5_requestSchema_composite (e : EndpointV)
    (hnd : (e.options.requestPropertiesToValidate.map Facet.name).Nodup) :
    (requestSchema e).properties.map Prod.fst
      = e.options.requestPropertiesToValidate.map Facet.name
    ∧ (requestSchema e).required
      = (e.options.requestPropertiesToValidate.filter
          (fun f => (e.facetSchema f).truthy)).map Facet.name
    ∧ ∀ f ∈ e.options.requestPropertiesToValidate,
        (requestSchema e).properties.lookup f.name
          = some ((e.facetSchema f).orJ (.obj [])) := by
  rw [requestSchema_eq e hnd]
  refine ⟨by simp, rfl, ?_⟩
  intro f hf
  exact lookup_map_facetName _ _ hnd f hf

/-- C5 witness: for the endpoint declaring only a query schema, all five
facets appear as properties and `required` is exactly `['query']`. -/
theorem c5_witness :
    (requestSchema exEndpointQuery).properties.map Prod.fst
      = ["query", "params", "headers", "cookies", "signedCookies"]
    ∧ (requestSchema exEndpointQuery).required = ["query"]
    ∧ (requestSchema exEndpointQuery).properties.lookup "params"
      = some (.obj []) := by
  have h := c5_requestSchema_composite exEndpointQuery (by decide)
  refine ⟨by rw [h.1]; rfl, by rw [h.2.1]; rfl, ?_⟩
  have := h.2.2 Facet.params (by decide)
  simpa using this

/-- C10: `requestPropertiesToValidate` defaults to the five facets
excluding `body`, so the compiled request validator never checks the
request body: for any endpoint with the default facet list that declares a
(truthy) `bodySchema`, any request whose five validated facets pass
validates as a whole — even when its body fails the declared body schema —
and the middleware proceeds past validation into the handler pipeline
(`afterValidation`).  The declared body schema therefore only feeds the
generated document's `requestBody`. -/
theorem c10_body_never_validated :
    (defaultOptions.requestPropertiesToValidate
        = [.query, .params, .headers, .cookies, .signedCookies]
      ∧ Facet.body ∉ defaultOptions.requestPropertiesToValidate)
    ∧ ∀ {ε : Type} (fuel : Nat) (e : EndpointV)
        (reqFields : List (String × JVal)) (compileResp : JVal → ValidatorV)
        (handler : JVal → Except ε HandlerRet),
        e.options.requestPropertiesToValidate
            = [.query, .params, .headers, .cookies, .signedCookies] →
        e.bodySchema.truthy = true →
        (∀ f ∈ ([.query, .params, .headers, .cookies, .signedCookies] :
            List Facet), facetPasses fuel e (.obj reqFields) f = true) →
        validateJ fuel e.bodySchema ((JVal.obj reqFields).prop "body")
            = false →
        checkObjSchema fuel (requestSchema e) (.obj reqFields) = true
        ∧ createMiddleware e (stdCompileReq fuel) compileResp handler
              (.obj reqFields)
            = afterValidation e compileResp handler (.obj reqFields) := by
  refine ⟨⟨rfl, by decide⟩, ?_⟩
  intro ε fuel e reqFields compileResp handler hlist htruthy hfp _hbodyfail
  have hnd : (e.options.requestPropertiesToValidate.map Facet.name).Nodup := by
    rw [hlist]; decide
  have hrs := requestSchema_eq e hnd
  have hcheck : checkObjSchema fuel (requestSchema e) (.obj reqFields) = true := by
    rw [hrs]
    simp only [checkObjSchema, Bool.and_eq_true, List.all_eq_true]
    constructor
    · intro k hk
      rw [hlist] at hk
      obtain ⟨f, hfmem, hfname⟩ := List.mem_map.mp hk
      obtain ⟨hfl, hft⟩ := List.mem_filter.mp hfmem
      have hF := hfp f hfl
      simp only [facetPasses, Bool.and_eq_true] at hF
      rcases hF with ⟨h1, _⟩
      subst hfname
      simp only [hft, if_true] at h1
      simpa [jvHasKey] using h1
    · intro kv hkv
      rw [hlist] at hkv
      obtain ⟨f, hfl, hkv⟩ := List.mem_map.mp hkv
      subst hkv
      have hF := hfp f hfl
      simp only [facetPasses, Bool.and_eq_true] at hF
      exact hF.2
  refine ⟨hcheck, ?_⟩
  unfold createMiddleware
  have hc : (stdCompileReq fuel (requestSchema e)).check (.obj reqFields)
      = true := hcheck
  simp [hc]

/-- C10 witness: an endpoint declaring `bodySchema = {type: 'object'}`,
and a request whose body is the number 5 (violating it) while the five
validated facets are empty objects: request validation passes and the
middleware reaches the handler pipeline. -/
theorem c10_witness :
    checkObjSchema 1 (requestSchema exEndpointBody) (.obj exReqFields) = true
    ∧ validateJ 1 exEndpointBody.bodySchema
        ((JVal.obj exReqFields).prop "body") = false
    ∧ createMiddleware exEndpointBody (stdCompileReq 1) acceptAllResp
        okHandler (.obj exReqFields)
      = afterValidation exEndpointBody acceptAllResp okHandler
          (.obj exReqFields) := by
  have h := c10_body_never_validated.2 1 exEndpointBody exReqFields
    acceptAllResp okHandler rfl rfl (by decide) rfl
  exact ⟨h.1, rfl, h.2⟩

/- ## Helper lemmas: unfold -/

theorem splitOnChar_ne_nil (sep : Char) (cs : List Char) :
    splitOnChar sep cs ≠ [] := by
  induction cs with
  | nil => simp [splitOnChar]
  | cons c rest ih =>
    simp only [splitOnChar]
    by_cases h : c = sep
    · simp [h]
    · rcases hr : splitOnChar sep rest with _ | ⟨seg, segs⟩
      · simp [h, hr]
      · simp [h, hr]

theorem strSplit_ne_nil (s : String) (sep : Char) : strSplit s sep ≠ [] := by
  unfold strSplit
  intro h
  exact splitOnChar_ne_nil sep s.toList (List.map_eq_nil_iff.mp h)

/-- A successfully resolved value is terminal: `null` or truthy without a
`$ref`.  Stated for the key-walk fold given the property for one level
deeper. -/
theorem unfoldWalk_terminal (spec : JVal) (n : Nat)
    (H : ∀ x r : JVal, unfoldF spec n x = some r →
        r = .null ∨ (r.truthy = true ∧ r.hasRef = false)) :
    ∀ (ks : List String) (acc r : JVal), ks ≠ [] →
      ks.foldlM (fun references key => unfoldF spec n (references.prop key))
          acc = some r →
      r = .null ∨ (r.truthy = true ∧ r.hasRef = false) := by
  intro ks
  induction ks with
  | nil => intro acc r hne; exact absurd rfl hne
  | cons k rest ih =>
    intro acc r _ h
    rw [List.foldlM_cons] at h
    rcases hstep : unfoldF spec n (acc.prop k) with _ | a
    · rw [hstep] at h
      exact absurd h (by simp)
    · rw [hstep] at h
      simp only [Option.bind_eq_bind, Option.some_bind] at h
      rcases rest with _ | ⟨k2, rest2⟩
      · have : a = r := by simpa using h
        exact this ▸ H _ _ hstep
      · exact ih a r (by simp) h

/-- C9 counterexample: the claim says every non-pointer value passes
through `unfold` unchanged.  `false` is a non-pointer value (`false` is a
legal boolean JSON Schema and carries no `$ref`), yet `unfold(false)`
takes the `if (!obj) return null` branch and yields `null`, not `false`. -/
theorem c9_counterexample :
    (JVal.bool false).hasRef = false
    ∧ unfoldF defaultSpec 1 (.bool false) = some .null
    ∧ unfoldF defaultSpec 1 (.bool false) ≠ some (.bool false) := by
  refine ⟨rfl, rfl, fun h => ?_⟩
  have h2 : (some JVal.null : Option JVal) = some (.bool false) := by
    rw [← h]
    rfl
  simp at h2

/-- C9 (amended): schema reference resolution is idempotent and terminal.
Every *truthy* non-pointer value passes through unchanged (falsy values —
`null`/`undefined`, but also `false`, `0`, `''` — resolve to `null`, which
is the one amendment the counterexample forces); an absent schema resolves
to `null`; every successful resolution is terminal (the result is `null`
or a truthy non-pointer, so an acyclic pointer chain ends at the final
concrete schema, never at another pointer); and resolving a second time
returns the same value (`unfold (unfold x) = unfold x`). -/
theorem c9_unfold_resolution (spec : JVal) :
    (∀ (n : Nat) (v : JVal), v.truthy = true → v.hasRef = false →
        unfoldF spec (n + 1) v = some v)
    ∧ (∀ n : Nat, unfoldF spec (n + 1) .null = some .null)
    ∧ (∀ (n : Nat) (x r : JVal), unfoldF spec n x = some r →
        r = .null ∨ (r.truthy = true ∧ r.hasRef = false))
    ∧ (∀ (n : Nat) (x r : JVal), unfoldF spec n x = some r →
        unfoldF spec n r = some r) := by
  have hA : ∀ (n : Nat) (v : JVal), v.truthy = true → v.hasRef = false →
      unfoldF spec (n + 1) v = some v := by
    intro n v ht hr
    simp [unfoldF, ht, hr]
  have hB : ∀ n : Nat, unfoldF spec (n + 1) .null = some .null := by
    intro n
    simp [unfoldF, JVal.truthy]
  have hC : ∀ (n : Nat) (x r : JVal), unfoldF spec n x = some r →
      r = .null ∨ (r.truthy = true ∧ r.hasRef = false) := by
    intro n
    induction n with
    | zero =>
      intro x r h
      exact absurd h (by simp [unfoldF])
    | succ n ih =>
      intro x r h
      unfold unfoldF at h
      by_cases ht : x.truthy = false
      · rw [if_pos ht] at h
        exact Or.inl (Option.some.inj h).symm
      · rw [if_neg ht] at h
        by_cases hr : x.hasRef = false
        · rw [if_pos hr] at h
          refine Or.inr ?_
          rw [← Option.some.inj h]
          exact ⟨eq_true_of_ne_false ht, hr⟩
        · rw [if_neg hr] at h
          rcases hs : x.prop "$ref" with _ | b | i | s | xs | fs
          all_goals rw [hs] at h
          · exact Option.noConfusion h
          · exact Option.noConfusion h
          · exact Option.noConfusion h
          · exact unfoldWalk_terminal spec n ih _ spec r
              (strSplit_ne_nil _ _) h
          · exact Option.noConfusion h
          · exact Option.noConfusion h
  have hD : ∀ (n : Nat) (x r : JVal), unfoldF spec n x = some r →
      unfoldF spec n r = some r := by
    intro n x r h
    rcases n with _ | n
    · exact absurd h (by simp [unfoldF])
    · rcases hC (n + 1) x r h with hnull | ⟨ht, hr⟩
      · rw [hnull]
        exact hB n
      · exact hA n r ht hr
  exact ⟨hA, hB, hC, hD⟩

/-- C9 witness: a truthy non-pointer passes through; `null` resolves to
`null`; the `EndpointError` pointer in the default spec resolves to the
concrete component schema, and resolving that result again returns it
unchanged (idempotence at a concrete chain). -/
theorem c9_witness :
    unfoldF defaultSpec 1 (.obj [("type", .str "object")])
      = some (.obj [("type", .str "object")])
    ∧ unfoldF defaultSpec 1 .null = some .null
    ∧ unfoldF defaultSpec 3 refEndpointError = some endpointErrorSchemaJ
    ∧ unfoldF defaultSpec 3 endpointErrorSchemaJ = some endpointErrorSchemaJ := by
  refine ⟨(c9_unfold_resolution defaultSpec).1 0 _ rfl rfl,
          (c9_unfold_resolution defaultSpec).2.1 0, rfl, ?_⟩
  exact (c9_unfold_resolution defaultSpec).2.2.2 3 refEndpointError
    endpointErrorSchemaJ rfl

/- ## Helper lemma: inversion of the route registration -/

/-- Successful `route` registration decomposed into its stages and the
resulting operation record. -/
theorem routeModel_inv (fuel : Nat) (st : RouterState) (uri : String)
    (e : EndpointV) (op : Option OpInit) (out : RouteOut)
    (h : routeModel fuel st uri e op = some out) :
    ∃ (bodySchema : JVal) (qs ps hs cs scs : List ParamV)
      (responses0 : List (String × RespV))
      (stepped : Option (List ParamV) × List String),
      unfoldF st.spec fuel e.bodySchema = some bodySchema
      ∧ getParametersM fuel st.spec "query" e.querySchema = some qs
      ∧ getParametersM fuel st.spec "path" e.paramsSchema = some ps
      ∧ getParametersM fuel st.spec "header" e.headersSchema = some hs
      ∧ getParametersM fuel st.spec "cookie" e.cookiesSchema = some cs
      ∧ getParametersM fuel st.spec "cookie" e.signedCookiesSchema = some scs
      ∧ buildResponsesM fuel st.spec e.options.defaultResponseMediaType
          e.options.responseHeaders (e.responseCodeSchemas.orJ (.obj []))
          (op.getD OpInit.empty).responses = some responses0
      ∧ processSegmentsOpt
          (if (qs ++ ps ++ hs ++ cs ++ scs
                ++ (op.getD OpInit.empty).parameters).isEmpty then none
           else some (qs ++ ps ++ hs ++ cs ++ scs
                ++ (op.getD OpInit.empty).parameters))
          (strSplit (joinUris st.uri uri) '/') = some stepped
      ∧ out =
          { path := "/" ++ joinWith "/" (stepped.2.filter fun s => s ≠ "")
            tags := dedupConcat st.tags (op.getD OpInit.empty).tags
            parameters := stepped.1
            responses :=
              if responses0.isEmpty then
                [(Int.repr e.options.defaultResponseCode, fallbackResponse)]
              else responses0
            requestBody := mkRequestBody e bodySchema
            security :=
              if st.securitySchemeName ≠ ""
                  ∧ (op.getD OpInit.empty).security.truthy = false then
                JVal.arr [.obj [(st.securitySchemeName, st.securityRequirement)]]
              else (op.getD OpInit.empty).security } := by
  unfold routeModel at h
  simp only [Option.bind_eq_bind, Option.bind_eq_some, Option.pure_def,
    Option.some.injEq] at h
  obtain ⟨bodySchema, h1, qs, h2, ps, h3, hs, h4, cs, h5, scs, h6,
    responses0, h7, stepped, h8, h9⟩ := h
  exact ⟨bodySchema, qs, ps, hs, cs, scs, responses0, stepped,
    h1, h2, h3, h4, h5, h6, h7, h8, h9.symm⟩

/-- C7: when the endpoint declares no response-code schemas and the
`operation()` override declares no responses, the registered operation's
`responses` mapping is exactly the single fallback entry keyed by the
endpoint's default response code with the generic
`'No schema given for response.'` description — never empty. -/
theorem c7_fallback_response (fuel : Nat) (st : RouterState) (uri : String)
    (e : EndpointV) (op : Option OpInit) (out : RouteOut)
    (hschemas : (e.responseCodeSchemas.orJ (.obj [])).keys = [])
    (hop : (op.getD OpInit.empty).responses = [])
    (h : routeModel fuel st uri e op = some out) :
    out.responses = [(Int.repr e.options.defaultResponseCode, fallbackResponse)]
    ∧ out.responses ≠ [] := by
  obtain ⟨bodySchema, qs, ps, hs, cs, scs, responses0, stepped,
    _, _, _, _, _, _, h7, _, h9⟩ := routeModel_inv fuel st uri e op out h
  have hr0 : responses0 = [] := by
    unfold buildResponsesM at h7
    rw [hschemas, hop] at h7
    simpa using h7.symm
  subst hr0
  rw [h9]
  exact ⟨rfl, by simp⟩

/-- C7 witness: a base endpoint (no schemas at all) routed at `/foo`
documents exactly one `'200'` fallback response. -/
theorem c7_witness :
    routeModel 3 rootState "/foo" EndpointV.base none = some exRoutePlain
    ∧ exRoutePlain.responses = [("200", fallbackResponse)]
    ∧ exRoutePlain.responses ≠ [] := by
  have h := c7_fallback_response 3 rootState "/foo" EndpointV.base none
    exRoutePlain rfl rfl rfl
  exact ⟨rfl, h.1, h.2⟩

theorem lookup_setKeyJ_self {α : Type} (k : String) (v : α)
    (l : List (String × α)) : (setKeyJ k v l).lookup k = some v := by
  induction l with
  | nil => simp [setKeyJ, List.lookup]
  | cons kv rest ih =>
    obtain ⟨k0, v0⟩ := kv
    by_cases h : k0 = k
    · simp [setKeyJ, h, List.lookup]
    · simp only [setKeyJ, if_neg h, List.lookup]
      have hb : (k == k0) = false := beq_eq_false_iff_ne.mpr (Ne.symm h)
      rw [hb]
      exact ih

/-- C8: `secure(middleware, schemeName, schemeDefinition, requirement)`
stores the scheme definition under `schemeName` in the shared document's
`components.securitySchemes` and records the pair on the node; every route
registered on that node afterwards whose `operation()` does not declare a
(truthy) `security` of its own gets
`operation.security = [{schemeName: requirement}]`. -/
theorem c8_secure_scheme_and_security (st : RouterState)
    (securitySchemeName : String)
    (securityScheme securityRequirement : JVal) (st2 : RouterState)
    (hsec : secureModel st securitySchemeName securityScheme
        securityRequirement = some st2)
    (hname : securitySchemeName ≠ "") :
    ((st2.spec.prop "components").prop "securitySchemes").prop
        securitySchemeName = securityScheme
    ∧ ∀ (fuel : Nat) (uri : String) (e : EndpointV) (op : Option OpInit)
        (out : RouteOut),
        (op.getD OpInit.empty).security.truthy = false →
        routeModel fuel st2 uri e op = some out →
        out.security
          = .arr [.obj [(securitySchemeName, securityRequirement)]] := by
  unfold secureModel at hsec
  split at hsec
  rotate_left
  · exact Option.noConfusion hsec
  split at hsec
  rotate_left
  · exact Option.noConfusion hsec
  split at hsec
  rotate_left
  · exact Option.noConfusion hsec
  have hst2 := (Option.some.inj hsec).symm
  constructor
  · rw [hst2]
    simp only [JVal.prop, lookup_setKeyJ_self, Option.getD_some]
  · intro fuel uri e op out hopsec hroute
    obtain ⟨_, _, _, _, _, _, _, _, _, _, _, _, _, _, _, _, h9⟩ :=
      routeModel_inv fuel st2 uri e op out hroute
    rw [h9]
    have hn2 : st2.securitySchemeName = securitySchemeName := by
      rw [hst2]
    have hr2 : st2.securityRequirement = securityRequirement := by
      rw [hst2]
    simp only [hn2, hr2]
    rw [if_pos ⟨hname, hopsec⟩]

/-- C8 witness: secure the root with an `apiKey` scheme, then route
`/foo`: the scheme is stored in `components.securitySchemes` and the
operation's `security` is `[{apiKey: []}]`. -/
theorem c8_witness :
    ((securedState.spec.prop "components").prop "securitySchemes").prop
        "apiKey" = exScheme
    ∧ exRouteAfterSecure.security = .arr [.obj [("apiKey", .arr [])]] := by
  have h := c8_secure_scheme_and_security rootState "apiKey" exScheme
    (.arr []) securedState rfl (by decide)
  exact ⟨h.1, h.2 3 "/foo" EndpointV.base none exRouteAfterSecure rfl rfl⟩

/- ## Helper lemmas: path-segment processing -/

theorem updateFirstParam_length (n : String) (fresh : ParamV) :
    ∀ ps : List ParamV, (updateFirstParam n fresh ps).length = ps.length := by
  intro ps
  induction ps with
  | nil => rfl
  | cons p rest ih =>
    unfold updateFirstParam
    by_cases h : p.name = n
    · simp [h]
    · simp [h, ih]

theorem updateFirstParam_names (n : String) (fresh : ParamV)
    (hn : fresh.name = n) :
    ∀ ps : List ParamV, (updateFirstParam n fresh ps).map (fun p => p.name)
      = ps.map (fun p => p.name) := by
  intro ps
  induction ps with
  | nil => rfl
  | cons p rest ih =>
    unfold updateFirstParam
    by_cases h : p.name = n
    · simp [h, mergeParam, hn]
    · simp [h, ih]

/-- A placeholder segment's path contribution is `{name}` whatever the
parameters list holds. -/
theorem processSegment_snd_placeholder (ps : List ParamV) (seg : String)
    (hp : strStartsWith seg ":" = true) :
    (processSegment ps seg).2
      = "\x7b" ++ (parseParamSeg (seg.toList.drop 1) "" none).1 ++ "\x7d" := by
  unfold processSegment
  rw [if_neg (by simp [hp])]
  dsimp only
  split <;> rfl

/-- The path half of the segment walk: every segment is mapped by
`segPath`, independently of the threaded parameters list. -/
theorem processSegmentsOpt_path (segs : List String) :
    ∀ (pOpt : Option (List ParamV))
      (out : Option (List ParamV) × List String),
      processSegmentsOpt pOpt segs = some out →
      out.2 = segs.map segPath := by
  induction segs with
  | nil =>
    intro pOpt out h
    have : (pOpt, ([] : List String)) = out := by
      simpa [processSegmentsOpt] using h
    rw [← this]
    rfl
  | cons seg rest ih =>
    intro pOpt out h
    unfold processSegmentsOpt at h
    by_cases hp : strStartsWith seg ":" = false
    · rw [if_pos hp] at h
      rcases hr : processSegmentsOpt pOpt rest with _ | prev
      · rw [hr] at h
        exact Option.noConfusion h
      · rw [hr] at h
        have hout : (prev.1, seg :: prev.2) = out := by simpa using h
        rw [← hout]
        simp [segPath, hp, ih pOpt prev hr]
    · rw [if_neg hp] at h
      rcases pOpt with _ | ps
      · exact Option.noConfusion h
      · dsimp only at h
        rcases hr : processSegmentsOpt (some (processSegment ps seg).1) rest
            with _ | prev
        · rw [hr] at h
          exact Option.noConfusion h
        · rw [hr] at h
          have hout : (prev.1, (processSegment ps seg).2 :: prev.2) = out := by
            simpa using h
          rw [← hout]
          have hp2 : strStartsWith seg ":" = true :=
            eq_true_of_ne_false hp
          simp only [List.map_cons, ih _ prev hr]
          rw [processSegment_snd_placeholder ps seg hp2]
          simp [segPath, hp2]

/-- C4 counterexample: for a route whose path template has a placeholder
but whose endpoint (a bare `Endpoint`) yields no parameter descriptors at
all, `route` deletes the empty `operation.parameters` and then the
placeholder handler calls `operation.parameters.find` on the deleted
field — a `TypeError`: no path is registered at all, whereas the claim
promises a document path `/a/{id}/b` with a synthesised `id` parameter. -/
theorem c4_counterexample :
    routeModel 3 rootState "/a/:id/b" EndpointV.base none = none := rfl

/-- C4 (amended): for every route whose assembled parameters list is
non-empty (otherwise registration throws — see the counterexample), the
document path replaces each `:name`/`:name(regex)` segment with `{name}`,
drops empty segments and keeps other segments unchanged; a placeholder
whose name is not among the descriptors is appended as
`{name, in: 'path', required: true}` plus a `{type: 'string', pattern}`
schema exactly when a non-empty regex was given; a placeholder whose name
matches an existing descriptor is merged into that first descriptor
(`Object.assign`), adding no entry; and the claim's concrete scenario —
`route('/users/:id(\d+)')` with a described `id` in `paramsSchema` —
produces the single merged descriptor carrying the declared description
and the derived `required`/`pattern`, at document path `/users/{id}`. -/
theorem c4_path_template_synthesis :
    (∀ (ps : List ParamV) (seg : String),
      strStartsWith seg ":" = false → processSegment ps seg = (ps, seg))
    ∧ (∀ (ps : List ParamV) (seg : String) (n : String) (rOpt : Option String),
        strStartsWith seg ":" = true →
        parseParamSeg (seg.toList.drop 1) "" none = (n, rOpt) →
        ps.any (fun p => p.name = n) = false →
        processSegment ps seg
          = (ps ++ [pathParamFor n rOpt], "\x7b" ++ n ++ "\x7d")
        ∧ (pathParamFor n rOpt).location = "path"
        ∧ (pathParamFor n rOpt).required = true
        ∧ ∀ r : String, rOpt = some r → r ≠ "" →
            (pathParamFor n rOpt).schema
              = some (.obj [("type", .str "string"), ("pattern", .str r)]))
    ∧ (∀ (ps : List ParamV) (seg : String) (n : String) (rOpt : Option String),
        strStartsWith seg ":" = true →
        parseParamSeg (seg.toList.drop 1) "" none = (n, rOpt) →
        ps.any (fun p => p.name = n) = true →
        processSegment ps seg
          = (updateFirstParam n (pathParamFor n rOpt) ps,
             "\x7b" ++ n ++ "\x7d")
        ∧ (processSegment ps seg).1.length = ps.length)
    ∧ (∀ (fuel : Nat) (st : RouterState) (uri : String) (e : EndpointV)
        (op : Option OpInit) (out : RouteOut),
        routeModel fuel st uri e op = some out →
        out.path = "/" ++ joinWith "/"
          (((strSplit (joinUris st.uri uri) '/').map segPath).filter
            fun s => s ≠ ""))
    ∧ routeModel 5 rootState "/users/:id(\\d+)" exEndpointScenario none
        = some
            { path := "/users/\x7bid\x7d", tags := []
              parameters := some [scenarioMergedParam]
              responses := [("200", fallbackResponse)]
              requestBody := none, security := .null } := by
  refine ⟨?_, ?_, ?_, ?_, rfl⟩
  · intro ps seg hp
    simp [processSegment, hp]
  · intro ps seg n rOpt hp hparse hfresh
    refine ⟨?_, rfl, rfl, ?_⟩
    · unfold processSegment
      rw [if_neg (by simp [hp])]
      simp only [hparse]
      rw [if_neg (by simp [hfresh])]
    · intro r hr hne
      subst hr
      simp [pathParamFor, hne]
  · intro ps seg n rOpt hp hparse hexist
    have heq : processSegment ps seg
        = (updateFirstParam n (pathParamFor n rOpt) ps,
           "\x7b" ++ n ++ "\x7d") := by
      unfold processSegment
      rw [if_neg (by simp [hp])]
      simp only [hparse]
      rw [if_pos hexist]
    refine ⟨heq, ?_⟩
    rw [heq]
    exact updateFirstParam_length n (pathParamFor n rOpt) ps
  · intro fuel st uri e op out h
    obtain ⟨_, _, _, _, _, _, _, stepped, _, _, _, _, _, _, _, h8, h9⟩ :=
      routeModel_inv fuel st uri e op out h
    rw [h9]
    have := processSegmentsOpt_path (strSplit (joinUris st.uri uri) '/') _
      stepped h8
    simp only [this]

/-- C4 witness: the general conjuncts applied at concrete segments — a
plain segment passes through, `:tag` is appended as a required path
parameter, and `:id(\d+)` merges into an existing `id` descriptor without
growing the list. -/
theorem c4_witness :
    processSegment [] "users" = ([], "users")
    ∧ processSegment [] ":tag"
      = ([pathParamFor "tag" none], "\x7btag\x7d")
    ∧ (processSegment [scenarioMergedParam] ":id").1.length = 1 := by
  refine ⟨c4_path_template_synthesis.1 [] "users" rfl, ?_, ?_⟩
  · exact (c4_path_template_synthesis.2.1 [] ":tag" "tag" none rfl rfl
      rfl).1
  · exact (c4_path_template_synthesis.2.2.1 [scenarioMergedParam] ":id"
      "id" none rfl rfl rfl).2

/-- C6 counterexample: the claim says no registered operation's parameters
list has two descriptors with the same `(name, location)` pair.  An
endpoint whose `cookiesSchema` and `signedCookiesSchema` both declare a
property `a` yields two `(a, cookie)` descriptors (both facets map to the
`cookie` location and nothing deduplicates them). -/
theorem c6_counterexample :
    routeModel 3 rootState "/x" exEndpointDupCookie none
      = some exRouteDupCookie
    ∧ (exRouteDupCookie.parameters.getD []).length = 2
    ∧ noDupNameLoc (exRouteDupCookie.parameters.getD []) = false := by
  exact ⟨rfl, rfl, rfl⟩

/-- C6 (amended): path-placeholder processing itself never introduces a
duplicate — when a placeholder's name matches an existing descriptor the
path-derived information is merged into that (first) descriptor and no
entry is added: the list's length and its name sequence are unchanged.
The global no-duplicate-`(name, location)` invariant, however, does not
hold for the full list (see the counterexample: two facet schemas mapping
to the same location, or `operation()`-declared parameters, can collide). -/
theorem c6_placeholder_merge_no_duplicate (ps : List ParamV) (seg : String)
    (hp : strStartsWith seg ":" = true)
    (hexist : ps.any
      (fun p => p.name = (parseParamSeg (seg.toList.drop 1) "" none).1)
      = true) :
    (processSegment ps seg).1.length = ps.length
    ∧ (processSegment ps seg).1.map (fun p => p.name)
      = ps.map (fun p => p.name) := by
  unfold processSegment
  rw [if_neg (by simp [hp]), if_pos hexist]
  constructor
  · exact updateFirstParam_length _ _ ps
  · refine updateFirstParam_names _ _ ?_ ps
    rfl

/-- C6 witness: merging `:id` into a list already containing an `id`
descriptor keeps one entry named `id`. -/
theorem c6_witness :
    (processSegment [scenarioMergedParam] ":id").1.length = 1
    ∧ (processSegment [scenarioMergedParam] ":id").1.map (fun p => p.name)
      = ["id"] :=
  c6_placeholder_merge_no_duplicate [scenarioMergedParam] ":id" rfl rfl

end ExpressPrimer
